import Mathlib

/-
Verification of the Fence / LinearFence synchronization primitives from
Samples/Desktop/D3D12LinkedGpus/src/LinkedGpus/Fence.h.

The embedding models the two classes as Lean structures and their member
functions as pure Lean functions.  UINT64 arithmetic is modelled as Nat with
an explicit modulus 2^64 where the C++ code can overflow (the counter
increment in Signal).  The D3D12 command queue is modelled as a list of
enqueued commands; the native fence's completed value (GPU-owned state) is
passed in explicitly where the code reads it.  The debug assertion _ASSERT
in Signal is modelled as an error result (Except.error), matching the
documented programming-error semantics; a failed assertion never updates
the counter.
-/

/-- The modulus of UINT64 arithmetic, 2^64. -/
def U64MOD : Nat := 2 ^ 64

/-- Fence.h line 111: static const UINT64 UnspecifiedFenceValue = UINT64_MAX. -/
def UnspecifiedFenceValue : Nat := U64MOD - 1

/-- Commands enqueued on a D3D12 command queue, as far as the fence model
observes them: queue->Signal(fence, value), queue->Wait(fence, value), and
opaque GPU work items submitted by callers. -/
inductive GpuCmd where
  | signalCmd (fenceId : Nat) (value : Nat)
  | waitCmd (fenceId : Nat) (value : Nat)
  | workCmd (tag : Nat)
deriving DecidableEq

/-- The Fence class state: m_fence is the identity of the native D3D12 fence
object, m_queue the list of commands enqueued on the associated command
queue, m_currentFenceValue the u64 counter ("the last value signaled by this
fence"). -/
structure Fence where
  m_fence : Nat
  m_queue : List GpuCmd
  m_currentFenceValue : Nat
deriving DecidableEq

/-- Fence::Fence(pQueue): the native fence is created with initial value
m_currentFenceValue = 0 and the queue has no commands from this fence yet. -/
def Fence.init (fenceId : Nat) : Fence :=
  { m_fence := fenceId, m_queue := [], m_currentFenceValue := 0 }

/-- Fence::Signal (Fence.h lines 59-72).  If value == UnspecifiedFenceValue
then m_currentFenceValue++ (u64 increment, hence mod 2^64); otherwise
_ASSERT(value > m_currentFenceValue) - modelled as an error result on
violation - and m_currentFenceValue = value.  Then
m_queue->Signal(m_fence, m_currentFenceValue) is enqueued. -/
def Fence.Signal (st : Fence) (value : Nat) : Except String Fence :=
  if value = UnspecifiedFenceValue then
    let c := (st.m_currentFenceValue + 1) % U64MOD
    Except.ok { st with m_currentFenceValue := c,
                        m_queue := st.m_queue ++ [GpuCmd.signalCmd st.m_fence c] }
  else if st.m_currentFenceValue < value then
    Except.ok { st with m_currentFenceValue := value,
                        m_queue := st.m_queue ++ [GpuCmd.signalCmd st.m_fence value] }
  else
    Except.error "ASSERT failed: value > m_currentFenceValue"

/-- The fence value Fence::CpuWait actually waits on (Fence.h lines 99-102):
the sentinel resolves to the current counter, any other value is used as
given. -/
def Fence.cpuWaitTarget (st : Fence) (fenceValue : Nat) : Nat :=
  if fenceValue = UnspecifiedFenceValue then st.m_currentFenceValue else fenceValue

/-- The observable behaviour of one Fence::CpuWait call: either it returns
immediately (no event registration, no blocking), or it registers the
CPU-waitable event for a target value and blocks with no timeout. -/
inductive CpuWaitAction where
  | immediate
  | blockOn (target : Nat)
deriving DecidableEq

/-- Fence::CpuWait (Fence.h lines 97-109), as a function of the native
fence's completed value at entry: resolve the sentinel to the current
counter; if GetCompletedValue() < fenceValue then
SetEventOnCompletion(fenceValue, m_fenceEvent) and
WaitForSingleObjectEx(m_fenceEvent, INFINITE, FALSE), else return. -/
def Fence.CpuWait (st : Fence) (completed : Nat) (fenceValue : Nat) : CpuWaitAction :=
  let fv := Fence.cpuWaitTarget st fenceValue
  if completed < fv then CpuWaitAction.blockOn fv else CpuWaitAction.immediate

/-- The return contract of a CpuWait call on target t: the native fence's
completed value observed at (or after) the moment the call returns is at
least t.  In the non-blocking branch GetCompletedValue() was already >= t
and the completed value never decreases; in the blocking branch the event
fires exactly when the native fence reaches t. -/
def cpuWaitReturnContract (target completedAtReturn : Nat) : Prop :=
  target ≤ completedAtReturn

/-- The static overload Fence::GpuWait(pQueue, pFence, value)
(Fence.h lines 85-93): resolve the sentinel to pFence->m_currentFenceValue,
then pQueue->Wait(pFence->m_fence, value). -/
def Fence.GpuWaitStatic (pQueue : List GpuCmd) (pFence : Fence) (value : Nat) :
    List GpuCmd :=
  let v := if value = UnspecifiedFenceValue then pFence.m_currentFenceValue else value
  pQueue ++ [GpuCmd.waitCmd pFence.m_fence v]

/-- The instance form Fence::GpuWait(value) (Fence.h lines 77-80):
GpuWait(m_queue.Get(), this, value). -/
def Fence.GpuWait (st : Fence) (value : Nat) : Fence :=
  { st with m_queue := Fence.GpuWaitStatic st.m_queue st value }

/-- Fence::FlushGpuQueue (Fence.h lines 51-55): Signal();
CpuWait(m_currentFenceValue).  Returns the post-Signal state together with
the argument passed to CpuWait. -/
def Fence.FlushGpuQueue (st : Fence) : Except String (Fence × Nat) :=
  (Fence.Signal st UnspecifiedFenceValue).map
    (fun st1 => (st1, st1.m_currentFenceValue))

/-- Iterated Signal() with unspecified value, used to state the
counter-sequence scenarios. -/
def afterSignals (st : Fence) : Nat → Except String Fence
  | 0 => Except.ok st
  | n + 1 => (afterSignals st n).bind (fun s => Fence.Signal s UnspecifiedFenceValue)

/-- The LinearFence class state (Fence.h lines 119-150): the inherited Fence
plus m_signalHistory (the ring buffer of issued signal values) and
m_signalIndex (the cursor into it). -/
structure LinearFence extends Fence where
  m_signalHistory : List Nat
  m_signalIndex : Nat
deriving DecidableEq

/-- LinearFence::LinearFence(pQueue, count) (Fence.h lines 130-135):
Fence(pQueue), m_signalIndex(0), m_signalHistory.resize(count) - resize of
an empty std::vector value-initializes, so the history starts as count
zeros. -/
def LinearFence.init (fenceId : Nat) (count : Nat) : LinearFence :=
  { toFence := Fence.init fenceId
    m_signalHistory := List.replicate count 0
    m_signalIndex := 0 }

/-- The ring buffer after the first statement of LinearFence::Next
(Fence.h line 141): m_signalHistory[m_signalIndex] = m_currentFenceValue. -/
def LinearFence.nextHist (st : LinearFence) : List Nat :=
  st.m_signalHistory.set st.m_signalIndex st.m_currentFenceValue

/-- The cursor after the second statement of LinearFence::Next
(Fence.h line 142): m_signalIndex = (m_signalIndex + 1) % m_signalHistory.size(). -/
def LinearFence.nextIdx (st : LinearFence) : Nat :=
  (st.m_signalIndex + 1) % (LinearFence.nextHist st).length

/-- LinearFence::Next (Fence.h lines 139-145):
m_signalHistory[m_signalIndex] = m_currentFenceValue;
m_signalIndex = (m_signalIndex + 1) % m_signalHistory.size();
Fence::CpuWait(m_signalHistory[m_signalIndex]).
Both vector accesses are bounds-checked in the model: an out-of-bounds
access (which in C++ is undefined behaviour, and for size 0 also a modulo
by zero) yields none.  On success the result is the new state together with
the raw fence value passed to Fence::CpuWait. -/
def LinearFence.Next (st : LinearFence) : Option (LinearFence × Nat) :=
  if st.m_signalIndex < st.m_signalHistory.length then
    match (LinearFence.nextHist st).get? (LinearFence.nextIdx st) with
    | some v =>
        some ({ st with m_signalHistory := LinearFence.nextHist st,
                        m_signalIndex := LinearFence.nextIdx st }, v)
    | none => none
  else
    none

/-- One record per Next() call in a run: the counter value written into the
ring slot at that call, and the raw fence value the call passed to
Fence::CpuWait. -/
structure NextRecord where
  recorded : Nat
  target : Nat
deriving DecidableEq

/-- The value Fence::CpuWait resolves the raw target of a Next() call to:
the sentinel resolves to the counter current at the call, which is exactly
the value the call has just recorded. -/
def NextRecord.resolvedTarget (r : NextRecord) : Nat :=
  if r.target = UnspecifiedFenceValue then r.recorded else r.target

/-- Operations a single-threaded caller can perform on a LinearFence:
Signal(value) - with value = UnspecifiedFenceValue for the parameterless
Signal() - and Next(). -/
inductive FenceOp where
  | signalOp (value : Nat)
  | nextOp
deriving DecidableEq

/-- Execute a list of operations on a LinearFence, collecting one NextRecord
per Next() call.  A failed Signal assertion or an out-of-bounds ring access
aborts the run with none. -/
def runOps : LinearFence → List NextRecord → List FenceOp →
    Option (LinearFence × List NextRecord)
  | st, calls, [] => some (st, calls)
  | st, calls, FenceOp.signalOp v :: rest =>
      match Fence.Signal st.toFence v with
      | Except.ok fs => runOps { st with toFence := fs } calls rest
      | Except.error _ => none
  | st, calls, FenceOp.nextOp :: rest =>
      match LinearFence.Next st with
      | some (st2, t) =>
          runOps st2 (calls ++ [{ recorded := st.m_currentFenceValue, target := t }]) rest
      | none => none

/-- A queue wait command is satisfied once the named fence's completed value
has reached the named value; other commands never block the queue. -/
def waitSatisfied (completed : Nat → Nat) : GpuCmd → Bool
  | GpuCmd.waitCmd f v => decide (v ≤ completed f)
  | _ => true

/-- In-order queue execution model: the command at position i of a queue can
execute under a given fence-completion state only when every wait command at
an earlier position is satisfied. -/
def canExecute (completed : Nat → Nat) (cmds : List GpuCmd) (i : Nat) : Prop :=
  ∀ j, j < i → waitSatisfied completed (cmds.getD j (GpuCmd.workCmd 0)) = true

instance (completed : Nat → Nat) (cmds : List GpuCmd) (i : Nat) :
    Decidable (canExecute completed cmds i) := by
  unfold canExecute
  infer_instance

instance (target completedAtReturn : Nat) :
    Decidable (cpuWaitReturnContract target completedAtReturn) := by
  unfold cpuWaitReturnContract
  infer_instance

/-- The default NextRecord used for out-of-range List.getD accesses in
statements; never actually selected under the stated bounds. -/
def defaultNextRecord : NextRecord := { recorded := 0, target := 0 }

/-- Invariant tying a LinearFence state to the list of Next() calls made so
far (with ring capacity N): the ring has length N, the cursor is the number
of calls mod N, and each of the most recent N calls still has its recorded
value in its slot (older slots have been overwritten). -/
def HistInv (N : Nat) (calls : List NextRecord) (st : LinearFence) : Prop :=
  st.m_signalHistory.length = N ∧
  st.m_signalIndex = calls.length % N ∧
  ∀ i, i < calls.length → calls.length ≤ i + N →
    st.m_signalHistory.getD (i % N) 0 = (calls.getD i defaultNextRecord).recorded

/-- The slot arithmetic of Next: the raw value the (i+1)-st call passes to
Fence::CpuWait is the value recorded at call i+2-N (0-indexed: calls.getD i
targets calls.getD (i+1-N)), whenever that call exists. -/
def TargetRel (N : Nat) (calls : List NextRecord) : Prop :=
  ∀ i, i < calls.length → N ≤ i + 1 →
    (calls.getD i defaultNextRecord).target
      = (calls.getD (i + 1 - N) defaultNextRecord).recorded

deriving instance DecidableEq for Except

/-! Helper lemmas about list indexing, shared by several proofs below. -/

lemma getD_set_self {α : Type} (l : List α) (i : Nat) (a d : α) (h : i < l.length) :
    (l.set i a).getD i d = a := by
  simp [List.getD_eq_getElem?_getD, List.getElem?_set_eq_of_lt a h]

lemma getD_set_ne {α : Type} (l : List α) (i j : Nat) (a d : α) (h : i ≠ j) :
    (l.set i a).getD j d = l.getD j d := by
  simp [List.getD_eq_getElem?_getD, List.getElem?_set_ne h]

lemma getD_append_left {α : Type} (l1 l2 : List α) (i : Nat) (d : α) (h : i < l1.length) :
    (l1 ++ l2).getD i d = l1.getD i d := by
  rw [List.getD_eq_getElem?_getD, List.getD_eq_getElem?_getD, List.getElem?_append, if_pos h]

lemma getD_append_last {α : Type} (l : List α) (a d : α) :
    (l ++ [a]).getD l.length d = a := by
  simp [List.getD_eq_getElem?_getD, List.getElem?_append_right (Nat.le_refl _)]

lemma get?_eq_some_getD {α : Type} (l : List α) (i : Nat) (d : α) (h : i < l.length) :
    l.get? i = some (l.getD i d) := by
  simp [List.get?_eq_getElem?, List.getD_eq_getElem?_getD, List.getElem?_eq_getElem h]

lemma mod_succ_mod (a N : Nat) : (a % N + 1) % N = (a + 1) % N :=
  Nat.ModEq.add_right 1 (Nat.mod_modEq a N)

lemma mod_ne_mod_add (a d N : Nat) (hd : 0 < d) (hdN : d < N) : a % N ≠ (a + d) % N := by
  intro h
  have h2 : N ∣ (a + d) - a := (Nat.modEq_iff_dvd' (Nat.le_add_right a d)).mp h
  rw [Nat.add_sub_cancel_left] at h2
  exact absurd (Nat.le_of_dvd hd h2) (by omega)

lemma U64MOD_pos : 0 < U64MOD := by decide

lemma cpuWaitTarget_self (s : Fence) :
    Fence.cpuWaitTarget s s.m_currentFenceValue = s.m_currentFenceValue := by
  unfold Fence.cpuWaitTarget
  split <;> rfl

lemma nextHist_length (st : LinearFence) :
    (LinearFence.nextHist st).length = st.m_signalHistory.length := by
  simp [LinearFence.nextHist]

lemma nextIdx_lt (st : LinearFence) (h : 0 < st.m_signalHistory.length) :
    LinearFence.nextIdx st < st.m_signalHistory.length := by
  rw [← nextHist_length st]
  exact Nat.mod_lt _ (by rw [nextHist_length]; omega)

lemma Next_eq_some (st : LinearFence) (h : st.m_signalIndex < st.m_signalHistory.length) :
    LinearFence.Next st = some
      ({ st with m_signalHistory := LinearFence.nextHist st,
                 m_signalIndex := LinearFence.nextIdx st },
       (LinearFence.nextHist st).getD (LinearFence.nextIdx st) 0) := by
  have hidx : LinearFence.nextIdx st < (LinearFence.nextHist st).length := by
    rw [nextHist_length]
    exact nextIdx_lt st (by omega)
  unfold LinearFence.Next
  rw [if_pos h, get?_eq_some_getD _ _ 0 hidx]

lemma Next_eq_none (st : LinearFence) (h : ¬ st.m_signalIndex < st.m_signalHistory.length) :
    LinearFence.Next st = none := by
  unfold LinearFence.Next
  rw [if_neg h]

lemma next_step (N : Nat) (hN : 1 ≤ N) (st : LinearFence) (calls : List NextRecord)
    (hInv : HistInv N calls st) :
    LinearFence.Next st = some
      ({ st with m_signalHistory := LinearFence.nextHist st,
                 m_signalIndex := LinearFence.nextIdx st },
       (LinearFence.nextHist st).getD (LinearFence.nextIdx st) 0) ∧
    HistInv N (calls ++ [{ recorded := st.m_currentFenceValue,
                           target := (LinearFence.nextHist st).getD (LinearFence.nextIdx st) 0 }])
      { st with m_signalHistory := LinearFence.nextHist st,
                m_signalIndex := LinearFence.nextIdx st } ∧
    (TargetRel N calls →
     TargetRel N (calls ++ [{ recorded := st.m_currentFenceValue,
                              target := (LinearFence.nextHist st).getD (LinearFence.nextIdx st) 0 }])) := by
  obtain ⟨hlen, hcur, hget⟩ := hInv
  have hNpos : 0 < N := hN
  have hguard : st.m_signalIndex < st.m_signalHistory.length := by
    rw [hlen, hcur]
    exact Nat.mod_lt _ hNpos
  have hHlen : (LinearFence.nextHist st).length = N := by
    rw [nextHist_length, hlen]
  have hidx2 : LinearFence.nextIdx st = (calls.length + 1) % N := by
    unfold LinearFence.nextIdx
    rw [hHlen, hcur]
    exact mod_succ_mod _ _
  have hsetpos : calls.length % N < st.m_signalHistory.length := by
    rw [hlen]
    exact Nat.mod_lt _ hNpos
  have hhist : ∀ j, j ≠ calls.length % N →
      (LinearFence.nextHist st).getD j 0 = st.m_signalHistory.getD j 0 := by
    intro j hj
    unfold LinearFence.nextHist
    rw [hcur]
    exact getD_set_ne _ _ _ _ _ (fun hh => hj hh.symm)
  have hwrite : (LinearFence.nextHist st).getD (calls.length % N) 0
      = st.m_currentFenceValue := by
    unfold LinearFence.nextHist
    rw [hcur]
    exact getD_set_self _ _ _ _ hsetpos
  refine ⟨Next_eq_some st hguard, ⟨hHlen, ?_, ?_⟩, ?_⟩
  · simp only [List.length_append, List.length_singleton]
    exact hidx2
  · intro i hi1 hi2
    simp only [List.length_append, List.length_singleton] at hi1 hi2
    show (LinearFence.nextHist st).getD (i % N) 0
        = ((calls ++ [({ recorded := st.m_currentFenceValue,
                         target := (LinearFence.nextHist st).getD
                           (LinearFence.nextIdx st) 0 } : NextRecord)]).getD
            i defaultNextRecord).recorded
    rcases Nat.lt_or_ge i calls.length with hlt | hge
    · have hne : i % N ≠ calls.length % N := by
        have hd := mod_ne_mod_add i (calls.length - i) N (by omega) (by omega)
        rwa [Nat.add_sub_cancel' (Nat.le_of_lt hlt)] at hd
      rw [getD_append_left _ _ _ _ hlt, hhist _ hne]
      exact hget i hlt (by omega)
    · have hieq : i = calls.length := by omega
      subst hieq
      rw [getD_append_last]
      exact hwrite
  · intro hTR i hi1 hi2
    simp only [List.length_append, List.length_singleton] at hi1
    rcases Nat.lt_or_ge i calls.length with hlt | hge
    · have hlt2 : i + 1 - N < calls.length := by omega
      rw [getD_append_left _ _ _ _ hlt, getD_append_left _ _ _ _ hlt2]
      exact hTR i hlt hi2
    · have hieq : i = calls.length := by omega
      subst hieq
      rw [getD_append_last]
      by_cases hN1 : calls.length + 1 - N = calls.length
      · rw [hN1, getD_append_last]
        show (LinearFence.nextHist st).getD (LinearFence.nextIdx st) 0
            = st.m_currentFenceValue
        have hNe1 : N = 1 := by omega
        have hw2 := hwrite
        rw [hNe1, Nat.mod_one] at hw2
        rw [hidx2, hNe1, Nat.mod_one]
        exact hw2
      · have hi0lt : calls.length + 1 - N < calls.length := by omega
        rw [getD_append_left _ _ _ _ hi0lt]
        show (LinearFence.nextHist st).getD (LinearFence.nextIdx st) 0
            = (calls.getD (calls.length + 1 - N) defaultNextRecord).recorded
        have hmod : LinearFence.nextIdx st = (calls.length + 1 - N) % N := by
          rw [hidx2]
          have hh : (calls.length + 1 - N) + N = calls.length + 1 := by omega
          calc (calls.length + 1) % N
              = ((calls.length + 1 - N) + N) % N := by rw [hh]
            _ = (calls.length + 1 - N) % N := Nat.add_mod_right _ _
        have hne : (calls.length + 1 - N) % N ≠ calls.length % N := by
          have hd := mod_ne_mod_add (calls.length + 1 - N)
            (calls.length - (calls.length + 1 - N)) N (by omega) (by omega)
          rwa [Nat.add_sub_cancel' (by omega)] at hd
        rw [hmod, hhist _ hne]
        exact hget _ hi0lt (by omega)

lemma runOps_inv (N : Nat) (hN : 1 ≤ N) :
    ∀ (ops : List FenceOp) (st : LinearFence) (calls : List NextRecord),
      HistInv N calls st → TargetRel N calls →
      ∀ st2 calls2, runOps st calls ops = some (st2, calls2) →
        HistInv N calls2 st2 ∧ TargetRel N calls2 := by
  intro ops
  induction ops with
  | nil =>
      intro st calls h1 h2 st2 calls2 hrun
      simp only [runOps, Option.some.injEq, Prod.mk.injEq] at hrun
      obtain ⟨ha, hb⟩ := hrun
      subst ha
      subst hb
      exact ⟨h1, h2⟩
  | cons op rest ih =>
      intro st calls h1 h2 st2 calls2 hrun
      cases op with
      | signalOp v =>
          simp only [runOps] at hrun
          cases hS : Fence.Signal st.toFence v with
          | ok fs =>
              rw [hS] at hrun
              have hrun2 : runOps { st with toFence := fs } calls rest
                  = some (st2, calls2) := hrun
              have h1b : HistInv N calls { st with toFence := fs } := h1
              exact ih _ _ h1b h2 _ _ hrun2
          | error e =>
              rw [hS] at hrun
              exact Option.noConfusion hrun
      | nextOp =>
          simp only [runOps] at hrun
          obtain ⟨hNext, hInv2, hTR2⟩ := next_step N hN st calls h1
          rw [hNext] at hrun
          exact ih _ _ hInv2 (hTR2 h2) _ _ hrun

/-- Claim C2, counterexample: the claim quantifies over all Signal calls with
unspecified value on a Fence, but the u64 counter increment wraps.  From a
fresh Fence, Signal(2^64 - 2) then Signal() reaches counter 2^64 - 1; the
next Signal() sets the counter to 0, not to the previous counter plus 1. -/
theorem C2_counterexample :
    ∃ a b c : Fence,
      Fence.Signal (Fence.init 0) (U64MOD - 2) = Except.ok a ∧
      Fence.Signal a UnspecifiedFenceValue = Except.ok b ∧
      Fence.Signal b UnspecifiedFenceValue = Except.ok c ∧
      c.m_currentFenceValue ≠ b.m_currentFenceValue + 1 :=
  ⟨_, _, _, rfl, rfl, rfl, by decide⟩

/-- Claim C2, amended: each Signal call with unspecified value sets the
counter to (counter + 1) mod 2^64, which is an increment by exactly 1
whenever the counter is below 2^64 - 1; in particular, on a freshly
constructed Fence three such calls produce the counter sequence 1, 2, 3. -/
theorem C2_signal_increments (st : Fence)
    (h : st.m_currentFenceValue + 1 < U64MOD) :
    (∃ st2, Fence.Signal st UnspecifiedFenceValue = Except.ok st2 ∧
       st2.m_currentFenceValue = st.m_currentFenceValue + 1) ∧
    (afterSignals (Fence.init 0) 1).map (fun s => s.m_currentFenceValue) = Except.ok 1 ∧
    (afterSignals (Fence.init 0) 2).map (fun s => s.m_currentFenceValue) = Except.ok 2 ∧
    (afterSignals (Fence.init 0) 3).map (fun s => s.m_currentFenceValue) = Except.ok 3 := by
  have h1 : Fence.Signal st UnspecifiedFenceValue
      = Except.ok { st with
          m_currentFenceValue := (st.m_currentFenceValue + 1) % U64MOD,
          m_queue := st.m_queue
            ++ [GpuCmd.signalCmd st.m_fence ((st.m_currentFenceValue + 1) % U64MOD)] } := by
    simp [Fence.Signal]
  refine ⟨⟨_, h1, ?_⟩, by decide, by decide, by decide⟩
  simp only
  exact Nat.mod_eq_of_lt h

/-- Witness for C2_signal_increments at a freshly constructed Fence. -/
theorem C2_signal_increments_witness :
    (Fence.init 0).m_currentFenceValue + 1 < U64MOD ∧
    ((∃ st2, Fence.Signal (Fence.init 0) UnspecifiedFenceValue = Except.ok st2 ∧
        st2.m_currentFenceValue = (Fence.init 0).m_currentFenceValue + 1) ∧
     (afterSignals (Fence.init 0) 1).map (fun s => s.m_currentFenceValue) = Except.ok 1 ∧
     (afterSignals (Fence.init 0) 2).map (fun s => s.m_currentFenceValue) = Except.ok 2 ∧
     (afterSignals (Fence.init 0) 3).map (fun s => s.m_currentFenceValue) = Except.ok 3) :=
  ⟨by decide, C2_signal_increments (Fence.init 0) (by decide)⟩

/-- Claim C3: Signal with an explicit (non-sentinel) value v with
v <= the current counter fails the _ASSERT(value > m_currentFenceValue),
modelled as an error result, and the value is never applied to the counter
(no ok result exists). -/
theorem C3_signal_rejects_le (st : Fence) (v : Nat)
    (hv : v ≠ UnspecifiedFenceValue) (hle : v ≤ st.m_currentFenceValue) :
    Fence.Signal st v = Except.error "ASSERT failed: value > m_currentFenceValue" ∧
    ∀ st2, Fence.Signal st v ≠ Except.ok st2 := by
  have h1 : Fence.Signal st v
      = Except.error "ASSERT failed: value > m_currentFenceValue" := by
    unfold Fence.Signal
    rw [if_neg hv, if_neg (by omega)]
  refine ⟨h1, fun st2 h2 => ?_⟩
  rw [h1] at h2
  exact Except.noConfusion h2

/-- Witness for C3_signal_rejects_le: Signal(0) on a fresh fence (counter 0). -/
theorem C3_signal_rejects_le_witness :
    ((0 : Nat) ≠ UnspecifiedFenceValue ∧ (0 : Nat) ≤ (Fence.init 0).m_currentFenceValue) ∧
    (Fence.Signal (Fence.init 0) 0
        = Except.error "ASSERT failed: value > m_currentFenceValue" ∧
     ∀ st2, Fence.Signal (Fence.init 0) 0 ≠ Except.ok st2) :=
  ⟨⟨by decide, by decide⟩, C3_signal_rejects_le (Fence.init 0) 0 (by decide) (by decide)⟩

/-- Claim C4: FlushGpuQueue is exactly Signal() with unspecified value
followed by CpuWait on the value just signaled, and under the CpuWait return
contract the native fence's completed value observed after the call is at
least that signaled value. -/
theorem C4_flushGpuQueue (st : Fence) :
    ∃ st1, Fence.Signal st UnspecifiedFenceValue = Except.ok st1 ∧
      Fence.FlushGpuQueue st = Except.ok (st1, st1.m_currentFenceValue) ∧
      Fence.cpuWaitTarget st1 st1.m_currentFenceValue = st1.m_currentFenceValue ∧
      ∀ completed,
        cpuWaitReturnContract (Fence.cpuWaitTarget st1 st1.m_currentFenceValue) completed →
        st1.m_currentFenceValue ≤ completed := by
  have h1 : Fence.Signal st UnspecifiedFenceValue
      = Except.ok { st with
          m_currentFenceValue := (st.m_currentFenceValue + 1) % U64MOD,
          m_queue := st.m_queue
            ++ [GpuCmd.signalCmd st.m_fence ((st.m_currentFenceValue + 1) % U64MOD)] } := by
    simp [Fence.Signal]
  refine ⟨_, h1, ?_, cpuWaitTarget_self _, ?_⟩
  · unfold Fence.FlushGpuQueue
    rw [h1]
    rfl
  · intro completed hc
    unfold cpuWaitReturnContract at hc
    rwa [cpuWaitTarget_self] at hc

/-- Witness for C4_flushGpuQueue at a freshly constructed Fence. -/
theorem C4_flushGpuQueue_witness :
    ∃ st1, Fence.Signal (Fence.init 0) UnspecifiedFenceValue = Except.ok st1 ∧
      Fence.FlushGpuQueue (Fence.init 0) = Except.ok (st1, st1.m_currentFenceValue) ∧
      Fence.cpuWaitTarget st1 st1.m_currentFenceValue = st1.m_currentFenceValue ∧
      ∀ completed,
        cpuWaitReturnContract (Fence.cpuWaitTarget st1 st1.m_currentFenceValue) completed →
        st1.m_currentFenceValue ≤ completed :=
  C4_flushGpuQueue (Fence.init 0)

/-- Claim C5, counterexample: with v = UnspecifiedFenceValue = 2^64 - 1 and
completed value 0 < v, the claim says the event is registered for v, but the
code resolves the sentinel and registers the event for the current counter
(here 5), not for v. -/
theorem C5_counterexample :
    (0 : Nat) < UnspecifiedFenceValue ∧
    Fence.CpuWait { m_fence := 0, m_queue := [], m_currentFenceValue := 5 } 0
        UnspecifiedFenceValue = CpuWaitAction.blockOn 5 ∧
    (5 : Nat) ≠ UnspecifiedFenceValue := by
  refine ⟨by decide, by decide, by decide⟩

/-- Claim C5, amended: CpuWait(v) resolves its target to v itself when v is
not the unspecified sentinel and to the current counter when it is; it
returns immediately, without blocking or registering the event, when the
completed value is at least the resolved target, and otherwise registers the
event for the resolved target and blocks with no timeout. -/
theorem C5_cpuWait_behaviour (st : Fence) (completed v : Nat) :
    (Fence.cpuWaitTarget st v ≤ completed →
       Fence.CpuWait st completed v = CpuWaitAction.immediate) ∧
    (completed < Fence.cpuWaitTarget st v →
       Fence.CpuWait st completed v = CpuWaitAction.blockOn (Fence.cpuWaitTarget st v)) ∧
    (v ≠ UnspecifiedFenceValue → Fence.cpuWaitTarget st v = v) ∧
    (v = UnspecifiedFenceValue → Fence.cpuWaitTarget st v = st.m_currentFenceValue) := by
  refine ⟨?_, ?_, ?_, ?_⟩
  · intro h
    simp only [Fence.CpuWait]
    rw [if_neg (by omega)]
  · intro h
    simp only [Fence.CpuWait]
    rw [if_pos h]
  · intro h
    unfold Fence.cpuWaitTarget
    rw [if_neg h]
  · intro h
    unfold Fence.cpuWaitTarget
    rw [if_pos h]

/-- Witness for C5_cpuWait_behaviour at counter 0, completed 0, v = 3. -/
theorem C5_cpuWait_behaviour_witness :
    (Fence.cpuWaitTarget (Fence.init 0) 3 ≤ 0 →
       Fence.CpuWait (Fence.init 0) 0 3 = CpuWaitAction.immediate) ∧
    ((0 : Nat) < Fence.cpuWaitTarget (Fence.init 0) 3 →
       Fence.CpuWait (Fence.init 0) 0 3
         = CpuWaitAction.blockOn (Fence.cpuWaitTarget (Fence.init 0) 3)) ∧
    ((3 : Nat) ≠ UnspecifiedFenceValue → Fence.cpuWaitTarget (Fence.init 0) 3 = 3) ∧
    ((3 : Nat) = UnspecifiedFenceValue →
       Fence.cpuWaitTarget (Fence.init 0) 3 = (Fence.init 0).m_currentFenceValue) :=
  C5_cpuWait_behaviour (Fence.init 0) 0 3

/-- Claim C7, counterexample: the counter is not monotone over the fence's
lifetime.  From a fresh Fence, the permitted operations
Signal(2^64 - 2), Signal(), Signal() drive the counter 0, 2^64 - 2,
2^64 - 1, 0: the last step strictly decreases it (u64 wrap-around). -/
theorem C7_counterexample :
    ∃ a b c : Fence,
      Fence.Signal (Fence.init 0) (U64MOD - 2) = Except.ok a ∧
      Fence.Signal a UnspecifiedFenceValue = Except.ok b ∧
      Fence.Signal b UnspecifiedFenceValue = Except.ok c ∧
      c.m_currentFenceValue < b.m_currentFenceValue :=
  ⟨_, _, _, rfl, rfl, rfl, by decide⟩

/-- Claim C7, amended: provided the counter is below 2^64 - 1, every
operation leaves it greater than or equal to its previous value: a
successful Signal (either form) does not decrease it, GpuWait leaves it
unchanged, FlushGpuQueue does not decrease it, and Next leaves it unchanged
(CpuWait never writes the counter at all). -/
theorem C7_counter_monotone (st : Fence) (v : Nat)
    (h : st.m_currentFenceValue < U64MOD - 1) :
    (∀ st2, Fence.Signal st v = Except.ok st2 →
       st.m_currentFenceValue ≤ st2.m_currentFenceValue) ∧
    (Fence.GpuWait st v).m_currentFenceValue = st.m_currentFenceValue ∧
    (∀ st2 t, Fence.FlushGpuQueue st = Except.ok (st2, t) →
       st.m_currentFenceValue ≤ st2.m_currentFenceValue) ∧
    (∀ ls ls2 : LinearFence, ∀ t, LinearFence.Next ls = some (ls2, t) →
       ls2.m_currentFenceValue = ls.m_currentFenceValue) := by
  have hU : 0 < U64MOD := U64MOD_pos
  have hsig : ∀ st2, Fence.Signal st v = Except.ok st2 →
      st.m_currentFenceValue ≤ st2.m_currentFenceValue := by
    intro st2 hor
    unfold Fence.Signal at hor
    split_ifs at hor with h1 h2
    · cases hor
      simp only
      rw [Nat.mod_eq_of_lt (by omega)]
      omega
    · cases hor
      simp only
      omega
  refine ⟨hsig, rfl, ?_, ?_⟩
  · intro st2 t hfl
    unfold Fence.FlushGpuQueue at hfl
    have hsu : Fence.Signal st UnspecifiedFenceValue
        = Except.ok { st with
            m_currentFenceValue := (st.m_currentFenceValue + 1) % U64MOD,
            m_queue := st.m_queue
              ++ [GpuCmd.signalCmd st.m_fence ((st.m_currentFenceValue + 1) % U64MOD)] } := by
      simp [Fence.Signal]
    rw [hsu] at hfl
    simp only [Except.map] at hfl
    cases hfl
    simp only
    rw [Nat.mod_eq_of_lt (by omega)]
    omega
  · intro ls ls2 t hn
    by_cases hg : ls.m_signalIndex < ls.m_signalHistory.length
    · rw [Next_eq_some ls hg] at hn
      cases hn
      rfl
    · rw [Next_eq_none ls hg] at hn
      exact Option.noConfusion hn

/-- Witness for C7_counter_monotone at a fresh Fence and v = 5. -/
theorem C7_counter_monotone_witness :
    (Fence.init 0).m_currentFenceValue < U64MOD - 1 ∧
    ((∀ st2, Fence.Signal (Fence.init 0) 5 = Except.ok st2 →
        (Fence.init 0).m_currentFenceValue ≤ st2.m_currentFenceValue) ∧
     (Fence.GpuWait (Fence.init 0) 5).m_currentFenceValue
        = (Fence.init 0).m_currentFenceValue ∧
     (∀ st2 t, Fence.FlushGpuQueue (Fence.init 0) = Except.ok (st2, t) →
        (Fence.init 0).m_currentFenceValue ≤ st2.m_currentFenceValue) ∧
     (∀ ls ls2 : LinearFence, ∀ t, LinearFence.Next ls = some (ls2, t) →
        ls2.m_currentFenceValue = ls.m_currentFenceValue)) :=
  ⟨by decide, C7_counter_monotone (Fence.init 0) 5 (by decide)⟩

/-- Claim C9: calling Signal with the explicit value 2^64 - 1 (the reserved
sentinel) is the increment path - the counter becomes (counter + 1) mod
2^64, never the assigned value, and the value-greater-than-counter check is
not applied (the call always succeeds); GpuWait and CpuWait resolve the same
sentinel to the current counter. -/
theorem C9_sentinel_collision (st : Fence) (pQueue : List GpuCmd) :
    (Fence.Signal st UnspecifiedFenceValue
       = Except.ok { st with
           m_currentFenceValue := (st.m_currentFenceValue + 1) % U64MOD,
           m_queue := st.m_queue
             ++ [GpuCmd.signalCmd st.m_fence ((st.m_currentFenceValue + 1) % U64MOD)] }) ∧
    (Fence.cpuWaitTarget st UnspecifiedFenceValue = st.m_currentFenceValue) ∧
    (Fence.GpuWaitStatic pQueue st UnspecifiedFenceValue
       = pQueue ++ [GpuCmd.waitCmd st.m_fence st.m_currentFenceValue]) := by
  exact ⟨by simp [Fence.Signal], by simp [Fence.cpuWaitTarget], by simp [Fence.GpuWaitStatic]⟩

/-- Claim C10: for a LinearFence whose cursor is in bounds (as established
by the constructor for any capacity N >= 1 and preserved by every call),
Next succeeds - both ring accesses are in bounds - and keeps the cursor
strictly below the unchanged capacity; for capacity 0 the accesses are out
of bounds (and the cursor update divides by zero), so Next has no defined
result. -/
theorem C10_ring_bounds :
    (∀ st : LinearFence, st.m_signalIndex < st.m_signalHistory.length →
       ∃ st2 t, LinearFence.Next st = some (st2, t) ∧
         st2.m_signalIndex < st2.m_signalHistory.length ∧
         st2.m_signalHistory.length = st.m_signalHistory.length) ∧
    (∀ fenceId N : Nat, 1 ≤ N → (LinearFence.init fenceId N).m_signalIndex < N) ∧
    (∀ st : LinearFence, st.m_signalHistory.length = 0 → LinearFence.Next st = none) := by
  refine ⟨?_, ?_, ?_⟩
  · intro st h
    refine ⟨_, _, Next_eq_some st h, ?_, ?_⟩
    · simpa [nextHist_length] using nextIdx_lt st (by omega)
    · simpa using nextHist_length st
  · intro fenceId N hN
    simp only [LinearFence.init]
    omega
  · intro st h
    exact Next_eq_none st (by omega)

/-- Witness for C10_ring_bounds: the in-bounds branch applied to a freshly
constructed LinearFence of capacity 2, and the capacity-0 branch applied to
a freshly constructed LinearFence of capacity 0. -/
theorem C10_ring_bounds_witness :
    ((LinearFence.init 0 2).m_signalIndex < (LinearFence.init 0 2).m_signalHistory.length ∧
     (∃ st2 t, LinearFence.Next (LinearFence.init 0 2) = some (st2, t) ∧
        st2.m_signalIndex < st2.m_signalHistory.length ∧
        st2.m_signalHistory.length = (LinearFence.init 0 2).m_signalHistory.length)) ∧
    ((LinearFence.init 0 0).m_signalHistory.length = 0 ∧
     LinearFence.Next (LinearFence.init 0 0) = none) :=
  ⟨⟨by decide, C10_ring_bounds.1 (LinearFence.init 0 2) (by decide)⟩,
   ⟨by decide, C10_ring_bounds.2.2 (LinearFence.init 0 0) (by decide)⟩⟩

/-- Claim C1, counterexample: the claimed bound fails when a recorded value
collides with the reserved sentinel.  With capacity 2, the run
Signal(2^64 - 2); Signal(); Next; Signal(); Next; Next records 2^64 - 1 at
call 1, but call 2 then stores that sentinel as call 3's raw wait target,
which CpuWait resolves to the (wrapped) counter 0.  The all-zero GPU
completion schedule satisfies the model's monotonicity and per-call CpuWait
return contracts, yet at the return of call 3 (k = 3 > N = 2) the completed
value 0 is below the value 2^64 - 1 recorded at call k - N = 1. -/
theorem C1_counterexample :
    ∃ stf,
      runOps (LinearFence.init 0 2) []
        [FenceOp.signalOp (U64MOD - 2), FenceOp.signalOp UnspecifiedFenceValue,
         FenceOp.nextOp, FenceOp.signalOp UnspecifiedFenceValue,
         FenceOp.nextOp, FenceOp.nextOp]
      = some (stf,
        [{ recorded := U64MOD - 1, target := 0 },
         { recorded := 0, target := U64MOD - 1 },
         { recorded := 0, target := 0 }]) ∧
      (∀ i j : Nat, i ≤ j → (fun _ : Nat => (0:Nat)) i ≤ (fun _ : Nat => (0:Nat)) j) ∧
      (∀ i : Nat, i < 3 →
        cpuWaitReturnContract
          (([{ recorded := U64MOD - 1, target := 0 },
             { recorded := 0, target := U64MOD - 1 },
             { recorded := 0, target := 0 }].getD i defaultNextRecord).resolvedTarget)
          ((fun _ : Nat => (0:Nat)) i)) ∧
      ¬ (([{ recorded := U64MOD - 1, target := 0 },
           { recorded := 0, target := U64MOD - 1 },
           { recorded := 0, target := 0 }].getD (2 - 2) defaultNextRecord).recorded
          ≤ (fun _ : Nat => (0:Nat)) 2) := by
  refine ⟨_, rfl, ?_, ?_, ?_⟩
  · intro i j h
    exact Nat.le_refl 0
  · decide
  · decide

/-- Claim C1, amended: provided no Next() call records the reserved sentinel
value 2^64 - 1 (the counter never wraps into the sentinel during the run),
the k-th call to Next with k > N does not return until the GPU's completed
value has reached the counter value recorded at call k - N: for every run
from a fresh LinearFence of capacity N and every monotone GPU completion
schedule satisfying the per-call CpuWait return contract, the completed
value at the return of call k (0-indexed below, so N <= k) is at least the
value recorded at 0-indexed call k - N.  This throttling bound is what Next
alone enforces. -/
theorem C1_next_throttles (fenceId N : Nat) (hN : 1 ≤ N) (ops : List FenceOp)
    (stf : LinearFence) (calls : List NextRecord)
    (hrun : runOps (LinearFence.init fenceId N) [] ops = some (stf, calls))
    (hnosent : ∀ i, i < calls.length →
      (calls.getD i defaultNextRecord).recorded ≠ UnspecifiedFenceValue)
    (completedAt : Nat → Nat)
    (hmono : ∀ i j, i ≤ j → completedAt i ≤ completedAt j)
    (hwait : ∀ i, i < calls.length →
      cpuWaitReturnContract ((calls.getD i defaultNextRecord).resolvedTarget)
        (completedAt i))
    (k : Nat) (hkN : N ≤ k) (hk : k < calls.length) :
    (calls.getD (k - N) defaultNextRecord).recorded ≤ completedAt k := by
  have hInv0 : HistInv N [] (LinearFence.init fenceId N) := by
    refine ⟨?_, ?_, ?_⟩
    · simp [LinearFence.init]
    · simp [LinearFence.init]
    · intro i hi1 hi2
      simp at hi1
  have hTR0 : TargetRel N [] := by
    intro i hi1 hi2
    simp at hi1
  obtain ⟨hInv, hTR⟩ := runOps_inv N hN ops _ _ hInv0 hTR0 stf calls hrun
  have hk1 : k - 1 < calls.length := by omega
  have htarget := hTR (k - 1) hk1 (by omega)
  have hkk : k - 1 + 1 - N = k - N := by omega
  rw [hkk] at htarget
  have hres : (calls.getD (k - 1) defaultNextRecord).resolvedTarget
      = (calls.getD (k - N) defaultNextRecord).recorded := by
    unfold NextRecord.resolvedTarget
    rw [htarget, if_neg (hnosent (k - N) (by omega))]
  have hcontract := hwait (k - 1) hk1
  unfold cpuWaitReturnContract at hcontract
  rw [hres] at hcontract
  exact le_trans hcontract (hmono (k - 1) k (by omega))

/-- Witness for C1_next_throttles: capacity 1, two Next calls, completion
schedule completedAt i = i. -/
theorem C1_next_throttles_witness :
    runOps (LinearFence.init 0 1) [] [FenceOp.nextOp, FenceOp.nextOp]
      = some (LinearFence.init 0 1,
        [{ recorded := 0, target := 0 }, { recorded := 0, target := 0 }]) ∧
    ([{ recorded := (0:Nat), target := (0:Nat) },
      { recorded := 0, target := 0 }].getD (1 - 1) defaultNextRecord).recorded
      ≤ (fun m : Nat => m) 1 :=
  ⟨rfl,
   C1_next_throttles 0 1 (by decide) [FenceOp.nextOp, FenceOp.nextOp]
     (LinearFence.init 0 1)
     [{ recorded := 0, target := 0 }, { recorded := 0, target := 0 }]
     rfl (by decide) (fun m => m) (fun i j h => h) (by decide) 1 (by decide) (by decide)⟩

/-- Claim C6: every Next() call performs exactly, in order: write the
current counter into history[cursor]; set cursor = (cursor + 1) mod N;
CPU-wait on history[cursor] (the raw value handed to Fence::CpuWait); and
in the scenario LinearFence(N = 2) with the GPU always immediately
completing (no Signal issued, counter 0, completed value always >= 0), four
consecutive Next() calls all record and target 0, and CpuWait with fence
value 0 returns immediately for every completed value - none of the four
calls block. -/
theorem C6_next_steps_scenario :
    (∀ st : LinearFence, st.m_signalIndex < st.m_signalHistory.length →
      LinearFence.Next st = some
        ({ st with
            m_signalHistory :=
              st.m_signalHistory.set st.m_signalIndex st.m_currentFenceValue,
            m_signalIndex := (st.m_signalIndex + 1)
              % (st.m_signalHistory.set st.m_signalIndex st.m_currentFenceValue).length },
         (st.m_signalHistory.set st.m_signalIndex st.m_currentFenceValue).getD
           ((st.m_signalIndex + 1)
             % (st.m_signalHistory.set st.m_signalIndex st.m_currentFenceValue).length) 0)) ∧
    (∃ stf, runOps (LinearFence.init 0 2) []
        [FenceOp.nextOp, FenceOp.nextOp, FenceOp.nextOp, FenceOp.nextOp]
      = some (stf,
        [{ recorded := 0, target := 0 }, { recorded := 0, target := 0 },
         { recorded := 0, target := 0 }, { recorded := 0, target := 0 }])) ∧
    (∀ (s : Fence) (completed : Nat),
      Fence.CpuWait s completed 0 = CpuWaitAction.immediate) := by
  refine ⟨fun st h => Next_eq_some st h, ⟨_, rfl⟩, ?_⟩
  intro s completed
  simp only [Fence.CpuWait, Fence.cpuWaitTarget]
  rw [if_neg (show ¬ (0:Nat) = UnspecifiedFenceValue by decide),
      if_neg (Nat.not_lt_zero completed)]

/-- Witness for C6_next_steps_scenario: the step decomposition applied to a
freshly constructed LinearFence of capacity 2. -/
theorem C6_next_steps_scenario_witness :
    (LinearFence.init 0 2).m_signalIndex
      < (LinearFence.init 0 2).m_signalHistory.length ∧
    LinearFence.Next (LinearFence.init 0 2) = some
      ({ LinearFence.init 0 2 with
          m_signalHistory := (LinearFence.init 0 2).m_signalHistory.set
            (LinearFence.init 0 2).m_signalIndex
            (LinearFence.init 0 2).m_currentFenceValue,
          m_signalIndex := ((LinearFence.init 0 2).m_signalIndex + 1)
            % ((LinearFence.init 0 2).m_signalHistory.set
                (LinearFence.init 0 2).m_signalIndex
                (LinearFence.init 0 2).m_currentFenceValue).length },
       ((LinearFence.init 0 2).m_signalHistory.set
          (LinearFence.init 0 2).m_signalIndex
          (LinearFence.init 0 2).m_currentFenceValue).getD
         (((LinearFence.init 0 2).m_signalIndex + 1)
           % ((LinearFence.init 0 2).m_signalHistory.set
               (LinearFence.init 0 2).m_signalIndex
               (LinearFence.init 0 2).m_currentFenceValue).length) 0) :=
  ⟨by decide, C6_next_steps_scenario.1 (LinearFence.init 0 2) (by decide)⟩

/-- Claim C8: the static GpuWait(queue, fence, value) enqueues on the given
queue a wait command on the fence's native object at the given value
(defaulting to the fence's current counter when value is the sentinel); the
instance form GpuWait(value) is the static form applied to the fence's own
bound queue; and in the in-order queue execution model, any command at a
position after the enqueued wait can execute only when the fence's
completed value has reached the (resolved) wait value - no work enqueued
afterward on the queue executes before the fence reaches it. -/
theorem C8_gpuWait_orders (pQueue : List GpuCmd) (pFence : Fence) (value : Nat) :
    (Fence.GpuWaitStatic pQueue pFence value
      = pQueue ++ [GpuCmd.waitCmd pFence.m_fence
          (if value = UnspecifiedFenceValue then pFence.m_currentFenceValue else value)]) ∧
    (∀ st : Fence, Fence.GpuWait st value
      = { st with m_queue := Fence.GpuWaitStatic st.m_queue st value }) ∧
    (∀ (extra : List GpuCmd) (i : Nat) (completed : Nat → Nat),
      pQueue.length < i →
      canExecute completed (Fence.GpuWaitStatic pQueue pFence value ++ extra) i →
      (if value = UnspecifiedFenceValue then pFence.m_currentFenceValue else value)
        ≤ completed pFence.m_fence) := by
  refine ⟨rfl, fun st => rfl, ?_⟩
  intro extra i completed hi hcan
  have hj := hcan pQueue.length hi
  have hgd : (Fence.GpuWaitStatic pQueue pFence value ++ extra).getD pQueue.length
      (GpuCmd.workCmd 0)
      = GpuCmd.waitCmd pFence.m_fence
          (if value = UnspecifiedFenceValue then pFence.m_currentFenceValue else value) := by
    show ((pQueue ++ [GpuCmd.waitCmd pFence.m_fence
        (if value = UnspecifiedFenceValue then pFence.m_currentFenceValue else value)])
        ++ extra).getD pQueue.length (GpuCmd.workCmd 0) = _
    rw [getD_append_left _ _ _ _ (by rw [List.length_append, List.length_singleton]; omega)]
    exact getD_append_last _ _ _
  rw [hgd] at hj
  simp only [waitSatisfied] at hj
  exact of_decide_eq_true hj

/-- Witness for C8_gpuWait_orders: queue [work 0], fence id 7 with counter
0, explicit value 9, later work [work 1] at position 2, completed value 9
everywhere. -/
theorem C8_gpuWait_orders_witness :
    ((([GpuCmd.workCmd 0] : List GpuCmd).length < 2) ∧
     canExecute (fun _ => 9)
       (Fence.GpuWaitStatic [GpuCmd.workCmd 0] (Fence.init 7) 9 ++ [GpuCmd.workCmd 1]) 2) ∧
    ((if (9:Nat) = UnspecifiedFenceValue then (Fence.init 7).m_currentFenceValue else 9)
      ≤ (fun _ : Nat => (9:Nat)) (Fence.init 7).m_fence) :=
  ⟨⟨by decide, by decide⟩,
   (C8_gpuWait_orders [GpuCmd.workCmd 0] (Fence.init 7) 9).2.2 [GpuCmd.workCmd 1] 2
     (fun _ => 9) (by decide) (by decide)⟩
